import Mathlib

/-!
Shallow embedding of the FileSorter program (src/main.rs): the rule map,
rule loading (`load_rules`, `define_default_rules`), classification
(`apply_rules`), and one sort pass (`sort_files`), together with theorems
about the spec's claims.

OS strings are modelled as lists of units, each either a decoded Unicode
character or a byte from an invalid UTF-8 sequence; `toStr` succeeds
exactly when every unit is a valid character, mirroring `OsStr::to_str`.
A `.` is an ASCII byte in UTF-8, so splitting an OS string at its last
`.`-unit matches the byte-level split Rust performs for `Path::extension`.
-/

/-- One unit of an OS string: a decoded character, or an invalid byte. -/
inductive OsChar where
  | ch (c : Char)
  | bad (b : Nat)
deriving DecidableEq, Repr

/-- An OS string (`OsStr`): a sequence of units. -/
abbrev OsString := List OsChar

/-- `OsStr::to_str`: succeeds iff every unit is a valid character. -/
def osToStr : OsString → Option String
  | [] => some ""
  | OsChar.ch c :: rest => (osToStr rest).map (fun s => String.mk (c :: s.data))
  | OsChar.bad _ :: _ => none

/-- Embed a Rust `String` into an OS string (always valid UTF-8). -/
def strToOs (s : String) : OsString := s.data.map OsChar.ch

/-- Split a file name at its last `.` unit: `some (stem, ext)` where the
name is `stem ++ [.] ++ ext` and `ext` has no `.`; `none` if no `.`. -/
def extSplit : OsString → Option (OsString × OsString)
  | [] => none
  | u :: rest =>
    match extSplit rest with
    | some (pre, ext) => some (u :: pre, ext)
    | none => if u = OsChar.ch '.' then some ([], rest) else none

/-- `Path::extension` on a file name: the portion after the final `.`,
`none` when there is no `.` or the name begins with its only `.`. -/
def osExtension (name : OsString) : Option OsString :=
  match extSplit name with
  | some (pre, ext) => if pre = [] then none else some ext
  | none => none

/-- A path as `sort_files` builds it: the scanned directory joined with a
file name.  `Path::extension` depends only on the final component. -/
structure FilePath where
  dir : OsString
  name : OsString
deriving DecidableEq, Repr

/-- `Path::to_str` on a joined path: valid iff both components are. -/
def FilePath.toStr (p : FilePath) : Option String :=
  match osToStr p.dir, osToStr p.name with
  | some d, some n => some (d ++ "/" ++ n)
  | _, _ => none

/-- The `HashMap<String, String>` of rules, as an association list with
unique keys; `get` returns the first binding. -/
abbrev RuleMap := List (String × String)

/-- `HashMap::get`. -/
def RuleMap.get (m : RuleMap) (k : String) : Option String :=
  (m.find? (fun p => p.1 = k)).map (fun p => p.2)

/-- `HashMap::insert`: the new binding replaces any previous one. -/
def RuleMap.insert (m : RuleMap) (k v : String) : RuleMap :=
  (k, v) :: m.filter (fun p => ¬ p.1 = k)

/-- `define_default_rules`: the built-in default map. -/
def define_default_rules : RuleMap :=
  RuleMap.insert
    (RuleMap.insert
      (RuleMap.insert
        (RuleMap.insert ([] : RuleMap) ".txt" "TextFiles") ".jpg" "Images")
      ".png" "Images")
    ".rs" "RustCode"

/-- The possible states of the `rules.json` artifact as `load_rules`
distinguishes them: absent, unreadable, unparsable, or parsed rules. -/
inductive RulesArtifact where
  | absent
  | unreadable
  | malformed
  | parsed (rules : RuleMap)
deriving DecidableEq, Repr

/-- `load_rules`: `some` only when the artifact exists, reads, and parses. -/
def load_rules : RulesArtifact → Option RuleMap
  | RulesArtifact.absent => none
  | RulesArtifact.unreadable => none
  | RulesArtifact.malformed => none
  | RulesArtifact.parsed rules => some rules

/-- The possible states of the `sort_rules.lua` artifact as `apply_rules`
distinguishes them.  A loaded script is a function from the path string to
`none` (the Lua call returned `Err`) or `some r` (`Ok(r)` with `r` the
optional destination). -/
inductive ScriptArtifact where
  | absent
  | unreadable
  | loadError
  | loaded (f : String → Option (Option String))

/-- The result of one classification: a normal return, or a panic from
`file_path.to_str().unwrap()` on a non-UTF-8 path. -/
inductive RuleResult where
  | ok (dest : Option String)
  | panicked
deriving DecidableEq, Repr

/-- The static-rule branch of `apply_rules`: extension, `to_str`, and the
lookup of `format!(".{}", extension_str)`. -/
def staticLookup (file_path : FilePath) (rules : RuleMap) : Option String :=
  match osExtension file_path.name with
  | none => none
  | some ext =>
    match osToStr ext with
    | none => none
    | some extensionStr => rules.get ("." ++ extensionStr)

/-- `apply_rules`: static rules first; otherwise the Lua script, whose
absence, load failure, compile failure, and runtime error all fall through
to `None`.  The `unwrap` on `to_str` panics on a non-UTF-8 path once a
compiled script function is in hand. -/
def apply_rules (file_path : FilePath) (rules : RuleMap)
    (script : ScriptArtifact) : RuleResult :=
  match staticLookup file_path rules with
  | some dest => RuleResult.ok (some dest)
  | none =>
    match script with
    | ScriptArtifact.absent => RuleResult.ok none
    | ScriptArtifact.unreadable => RuleResult.ok none
    | ScriptArtifact.loadError => RuleResult.ok none
    | ScriptArtifact.loaded f =>
      match file_path.toStr with
      | none => RuleResult.panicked
      | some s =>
        match f s with
        | some dest => RuleResult.ok dest
        | none => RuleResult.ok none

/-- An immediate entry of the scanned directory: a regular file, or a
subdirectory holding the names of the files inside it. -/
inductive Entry where
  | file
  | subdir (files : List OsString)
deriving DecidableEq, Repr

/-- The listing of the scanned directory: name/entry pairs, unique names. -/
abbrev Listing := List (OsString × Entry)

/-- Look up an entry by name (first match). -/
def lookupEntry : Listing → OsString → Option Entry
  | [], _ => none
  | p :: rest, n => if p.1 = n then some p.2 else lookupEntry rest n

/-- `fs::create_dir_all(directory.join(destination))`: succeeds leaving the
listing unchanged when the destination already exists as a directory,
creates it when absent, and fails when a non-directory occupies the name. -/
def createDirAll (es : Listing) (destination : String) : Option Listing :=
  match lookupEntry es (strToOs destination) with
  | some (Entry.subdir _) => some es
  | some Entry.file => none
  | none => some (es ++ [(strToOs destination, Entry.subdir [])])

/-- `fs::rename(file_path, dest_path.join(file_name))`: the file leaves the
top level and appears, under its original name, inside the destination
subdirectory (an existing same-named file there is overwritten). -/
def renameInto : Listing → OsString → String → Listing
  | [], _, _ => []
  | p :: rest, name, destination =>
    if p.1 = name then renameInto rest name destination
    else
      (if p.1 = strToOs destination then
        match p.2 with
        | Entry.subdir fs =>
          (p.1, Entry.subdir (if name ∈ fs then fs else fs ++ [name]))
        | e => (p.1, e)
      else p) :: renameInto rest name destination

/-- How one pass ends: normal completion, an `Err(FileSystemError)` from
`create_dir_all`/`rename` via `?`, the `Err(InvalidInput)` for a
non-directory argument, or a panic from classification. -/
inductive Outcome where
  | ok
  | fsError
  | invalidDir
  | panicked
deriving DecidableEq, Repr

/-- The observable result of a pass: its outcome, the final listing of the
scanned directory, and the performed moves (file name, destination) in
order, which is also the sequence of `Moved ...` log lines. -/
structure SortResult where
  outcome : Outcome
  state : Listing
  moves : List (OsString × String)
deriving DecidableEq, Repr

/-- The `for entry in fs::read_dir(path)?` loop of `sort_files`, over the
snapshot of entries: subdirectory entries are skipped, each file entry is
classified, and a produced destination triggers `create_dir_all` and
`rename`, whose failure is returned at once through `?`. -/
def processEntries (directory : OsString) (rules : RuleMap)
    (script : ScriptArtifact) :
    List (OsString × Entry) → Listing → List (OsString × String) → SortResult
  | [], es, mv => ⟨Outcome.ok, es, mv⟩
  | (name, kind) :: rest, es, mv =>
    match kind with
    | Entry.subdir _ => processEntries directory rules script rest es mv
    | Entry.file =>
      match apply_rules ⟨directory, name⟩ rules script with
      | RuleResult.panicked => ⟨Outcome.panicked, es, mv⟩
      | RuleResult.ok none => processEntries directory rules script rest es mv
      | RuleResult.ok (some destination) =>
        match createDirAll es destination with
        | none => ⟨Outcome.fsError, es, mv⟩
        | some es1 =>
          processEntries directory rules script rest
            (renameInto es1 name destination) (mv ++ [(name, destination)])

/-- `sort_files`: validate the directory, resolve the rules
(`load_rules().unwrap_or_else(define_default_rules)`), and run the loop
over the directory's immediate entries. -/
def sort_files (directory : OsString) (isDir : Bool) (es : Listing)
    (rulesArt : RulesArtifact) (script : ScriptArtifact) : SortResult :=
  if isDir then
    processEntries directory ((load_rules rulesArt).getD define_default_rules)
      script es es []
  else
    ⟨Outcome.invalidDir, es, []⟩

/-- A directory holding just `report.txt`. -/
def reportListing : Listing := [(strToOs "report.txt", Entry.file)]

/-- A directory where a regular FILE named `TextFiles` blocks the creation
of the `TextFiles` destination subdirectory while sorting `a.txt`, with a
further matching file `b.rs` behind it. -/
def blockedListing : Listing :=
  [(strToOs "a.txt", Entry.file), (strToOs "TextFiles", Entry.file),
   (strToOs "b.rs", Entry.file)]

/-- An already-sorted directory: only destination subdirectories remain at
the top level. -/
def sortedListing : Listing :=
  [(strToOs "TextFiles", Entry.subdir [strToOs "report.txt"]),
   (strToOs "Images", Entry.subdir [strToOs "b.jpg"])]

/-- A directory with a subdirectory `Keep` next to a matching file. -/
def mixedListing : Listing :=
  [(strToOs "Keep", Entry.subdir [strToOs "inner.txt"]),
   (strToOs "a.txt", Entry.file)]

/-! ## Helper lemmas -/

theorem lookupEntry_append_some (es l : Listing) (n : OsString) (e : Entry)
    (h : lookupEntry es n = some e) : lookupEntry (es ++ l) n = some e := by
  induction es with
  | nil => simp [lookupEntry] at h
  | cons p rest ih =>
    by_cases hpn : p.1 = n
    · simpa [lookupEntry, hpn] using h
    · rw [List.cons_append, lookupEntry, if_neg hpn]
      rw [lookupEntry, if_neg hpn] at h
      exact ih h

theorem lookupEntry_createDirAll (es es1 : Listing) (d : String)
    (n : OsString) (e : Entry) (hcd : createDirAll es d = some es1)
    (h : lookupEntry es n = some e) : lookupEntry es1 n = some e := by
  unfold createDirAll at hcd
  cases hlk : lookupEntry es (strToOs d) with
  | none =>
    rw [hlk] at hcd
    injection hcd with h1
    subst h1
    exact lookupEntry_append_some _ _ _ _ h
  | some e0 =>
    rw [hlk] at hcd
    cases e0 with
    | file => cases hcd
    | subdir g =>
      injection hcd with h1
      subst h1
      exact h

theorem lookupEntry_renameInto (es : Listing) (name n : OsString) (d : String)
    (hne : ¬ name = n) (fs : List OsString)
    (h : lookupEntry es n = some (Entry.subdir fs)) :
    ∃ fs', lookupEntry (renameInto es name d) n = some (Entry.subdir fs') ∧
      fs ⊆ fs' := by
  induction es with
  | nil => simp [lookupEntry] at h
  | cons p rest ih =>
    by_cases hpn : p.1 = n
    · rw [lookupEntry, if_pos hpn] at h
      injection h with h2
      have hpname : ¬ p.1 = name := fun hh => hne (by rw [← hh, hpn])
      rw [renameInto, if_neg hpname]
      by_cases hpd : p.1 = strToOs d
      · rw [if_pos hpd, h2]
        by_cases hm : name ∈ fs
        · exact ⟨fs, by simp [lookupEntry, hpn, hm], List.Subset.refl fs⟩
        · exact ⟨fs ++ [name], by simp [lookupEntry, hpn, hm],
            List.subset_append_left fs [name]⟩
      · rw [if_neg hpd]
        exact ⟨fs, by rw [lookupEntry, if_pos hpn, h2], List.Subset.refl fs⟩
    · rw [lookupEntry, if_neg hpn] at h
      obtain ⟨fs', h1, h2⟩ := ih h
      by_cases hpname : p.1 = name
      · rw [renameInto, if_pos hpname]
        exact ⟨fs', h1, h2⟩
      · rw [renameInto, if_neg hpname]
        by_cases hpd : p.1 = strToOs d
        · rw [if_pos hpd]
          cases hp2 : p.2 with
          | file => exact ⟨fs', by rw [lookupEntry, if_neg hpn]; exact h1, h2⟩
          | subdir g => exact ⟨fs', by rw [lookupEntry]; simp only [hpn, if_false]; exact h1, h2⟩
        · rw [if_neg hpd]
          exact ⟨fs', by rw [lookupEntry, if_neg hpn]; exact h1, h2⟩

theorem processEntries_no_files (directory : OsString) (rules : RuleMap)
    (script : ScriptArtifact) (L : List (OsString × Entry)) :
    ∀ (es : Listing) (mv : List (OsString × String)),
      (∀ p ∈ L, p.2 ≠ Entry.file) →
      processEntries directory rules script L es mv = ⟨Outcome.ok, es, mv⟩ := by
  induction L with
  | nil => intro es mv _; rfl
  | cons p rest ih =>
    intro es mv h
    obtain ⟨name, kind⟩ := p
    cases kind with
    | file => exact absurd rfl (h (name, Entry.file) (List.mem_cons_self _ _))
    | subdir g =>
      rw [processEntries]
      exact ih es mv (fun q hq => h q (List.mem_cons_of_mem _ hq))

theorem processEntries_subdir_frame (directory : OsString) (rules : RuleMap)
    (script : ScriptArtifact) (n : OsString) (L : List (OsString × Entry)) :
    ∀ (es : Listing) (mv : List (OsString × String)) (fs : List OsString),
      (n, Entry.file) ∉ L →
      lookupEntry es n = some (Entry.subdir fs) →
      ∃ fs',
        lookupEntry (processEntries directory rules script L es mv).state n =
          some (Entry.subdir fs') ∧ fs ⊆ fs' := by
  induction L with
  | nil => intro es mv fs _ h; exact ⟨fs, h, List.Subset.refl fs⟩
  | cons p rest ih =>
    intro es mv fs hnin h
    obtain ⟨name, kind⟩ := p
    have hnin' : (n, Entry.file) ∉ rest :=
      fun hh => hnin (List.mem_cons_of_mem _ hh)
    cases kind with
    | subdir g =>
      rw [processEntries]
      exact ih es mv fs hnin' h
    | file =>
      have hname : ¬ name = n := by
        intro hh
        subst hh
        exact hnin (List.mem_cons_self _ _)
      rw [processEntries]
      split
      · exact ⟨fs, h, List.Subset.refl fs⟩
      · exact ih es mv fs hnin' h
      · rename_i d0 har
        split
        · exact ⟨fs, h, List.Subset.refl fs⟩
        · rename_i es1 hcd
          have h1 := lookupEntry_createDirAll es es1 d0 n _ hcd h
          obtain ⟨fs1, hl1, hsub1⟩ :=
            lookupEntry_renameInto es1 name n d0 hname fs h1
          obtain ⟨fs2, hl2, hsub2⟩ :=
            ih (renameInto es1 name d0) (mv ++ [(name, d0)]) fs1 hnin' hl1
          exact ⟨fs2, hl2, List.Subset.trans hsub1 hsub2⟩

/-! ## Claims -/

/-- Claim C1, counterexample: in a directory holding `a.txt`, a regular
file named `TextFiles`, and `b.rs`, the failure of `create_dir_all` on the
first move is returned as the pass's result (`Err` via `?`): the pass does
not continue to the last entry, `b.rs` stays unmoved, and zero moves are
performed, refuting the claim that per-file failures never abort the
pass. -/
theorem c1_per_file_failure_aborts_cex :
    sort_files (strToOs "d") true blockedListing RulesArtifact.absent
      ScriptArtifact.absent = ⟨Outcome.fsError, blockedListing, []⟩ := by
  decide

/-- Claim C1 (amended): during one sort pass, a failure to create a
destination subdirectory for a classified file aborts the pass at once:
the FileSystemError is returned as the pass's result, the remaining
entries are not processed, and the listing and the move log are left as
they were at the failure. -/
theorem c1_move_failure_aborts (directory name : OsString) (rules : RuleMap)
    (script : ScriptArtifact) (dest : String)
    (rest : List (OsString × Entry)) (es : Listing)
    (mv : List (OsString × String))
    (h1 : apply_rules ⟨directory, name⟩ rules script =
      RuleResult.ok (some dest))
    (h2 : createDirAll es dest = none) :
    processEntries directory rules script ((name, Entry.file) :: rest) es mv =
      ⟨Outcome.fsError, es, mv⟩ := by
  simp [processEntries, h1, h2]

/-- Witness for C1 (amended): `a.txt` classifies to `TextFiles`, which is
blocked by a same-named regular file, so the pass aborts. -/
theorem c1_move_failure_aborts_witness :
    apply_rules ⟨strToOs "d", strToOs "a.txt"⟩ define_default_rules
        ScriptArtifact.absent = RuleResult.ok (some "TextFiles") ∧
    createDirAll blockedListing "TextFiles" = none ∧
    processEntries (strToOs "d") define_default_rules ScriptArtifact.absent
        ((strToOs "a.txt", Entry.file) :: []) blockedListing [] =
      ⟨Outcome.fsError, blockedListing, []⟩ :=
  ⟨rfl, rfl, c1_move_failure_aborts _ _ _ _ _ _ _ _ rfl rfl⟩

/-- Claim C2: on a path that is not an existing directory, `sort_files`
fails at once with InvalidDirectoryError, the listing is unchanged, no
move is performed, and the result does not depend on the rule or script
artifacts (they are never loaded). -/
theorem c2_invalid_directory_immediate (directory : OsString) (es : Listing)
    (ra ra' : RulesArtifact) (sa sa' : ScriptArtifact) :
    sort_files directory false es ra sa =
      ⟨Outcome.invalidDir, es, []⟩ ∧
    sort_files directory false es ra sa =
      sort_files directory false es ra' sa' :=
  ⟨rfl, rfl⟩

/-- Claim C3: when the file's extension key (`.` plus extension, exact
match) is bound in the static rule map, `apply_rules` returns exactly the
mapped destination, for every state of the script artifact. -/
theorem c3_static_rule_precedence (dir name ext : OsString)
    (extensionStr dest : String) (rules : RuleMap) (script : ScriptArtifact)
    (hext : osExtension name = some ext)
    (hstr : osToStr ext = some extensionStr)
    (hget : RuleMap.get rules ("." ++ extensionStr) = some dest) :
    apply_rules ⟨dir, name⟩ rules script = RuleResult.ok (some dest) := by
  simp [apply_rules, staticLookup, hext, hstr, hget]

/-- Witness for C3: `a.txt` resolves to `TextFiles` under the default
rules even when a loaded script would answer differently. -/
theorem c3_static_rule_precedence_witness :
    osExtension (strToOs "a.txt") = some (strToOs "txt") ∧
    osToStr (strToOs "txt") = some "txt" ∧
    RuleMap.get define_default_rules ("." ++ "txt") = some "TextFiles" ∧
    apply_rules ⟨strToOs "d", strToOs "a.txt"⟩ define_default_rules
        (ScriptArtifact.loaded (fun _ => some (some "Elsewhere"))) =
      RuleResult.ok (some "TextFiles") :=
  ⟨rfl, rfl, rfl, c3_static_rule_precedence _ _ _ "txt" _ _ _ rfl rfl rfl⟩

/-- Claim C4: whenever `load_rules` yields nothing (artifact absent,
unreadable, or unparsable), the pass runs with exactly the built-in
default map, whose bindings are `.txt` to `TextFiles`, `.jpg` and `.png`
to `Images`, and `.rs` to `RustCode`, and nothing else. -/
theorem c4_rules_fallback_default (ra : RulesArtifact) (directory : OsString)
    (es : Listing) (sa : ScriptArtifact) (h : load_rules ra = none) :
    sort_files directory true es ra sa =
      processEntries directory define_default_rules sa es es [] ∧
    define_default_rules =
      [(".rs", "RustCode"), (".png", "Images"), (".jpg", "Images"),
        (".txt", "TextFiles")] ∧
    RuleMap.get define_default_rules ".txt" = some "TextFiles" ∧
    RuleMap.get define_default_rules ".jpg" = some "Images" ∧
    RuleMap.get define_default_rules ".png" = some "Images" ∧
    RuleMap.get define_default_rules ".rs" = some "RustCode" := by
  refine ⟨?_, rfl, rfl, rfl, rfl, rfl⟩
  simp [sort_files, h]

/-- Witness for C4: a malformed artifact falls back to the defaults. -/
theorem c4_rules_fallback_default_witness :
    load_rules RulesArtifact.malformed = none ∧
    sort_files (strToOs "d") true reportListing RulesArtifact.malformed
        ScriptArtifact.absent =
      processEntries (strToOs "d") define_default_rules ScriptArtifact.absent
        reportListing reportListing [] :=
  ⟨rfl, (c4_rules_fallback_default RulesArtifact.malformed (strToOs "d")
    reportListing ScriptArtifact.absent rfl).1⟩

/-- Claim C5: for a file with no static-rule match, every failure of the
script artifact — absent, unreadable, failing to load or compile, or
erroring at runtime on the file's path string — makes `apply_rules`
return no destination as a normal result, never an error or a panic. -/
theorem c5_script_failure_no_destination (dir name : OsString)
    (rules : RuleMap) (f : String → Option (Option String)) (s : String)
    (h : staticLookup ⟨dir, name⟩ rules = none)
    (hs : FilePath.toStr ⟨dir, name⟩ = some s) (hf : f s = none) :
    apply_rules ⟨dir, name⟩ rules ScriptArtifact.absent =
      RuleResult.ok none ∧
    apply_rules ⟨dir, name⟩ rules ScriptArtifact.unreadable =
      RuleResult.ok none ∧
    apply_rules ⟨dir, name⟩ rules ScriptArtifact.loadError =
      RuleResult.ok none ∧
    apply_rules ⟨dir, name⟩ rules (ScriptArtifact.loaded f) =
      RuleResult.ok none := by
  refine ⟨?_, ?_, ?_, ?_⟩ <;> simp [apply_rules, h, hs, hf]

/-- Witness for C5: `c.unknownext` has no static match; a script whose
call errors at runtime still yields no destination. -/
theorem c5_script_failure_no_destination_witness :
    staticLookup ⟨strToOs "d", strToOs "c.unknownext"⟩
      define_default_rules = none ∧
    FilePath.toStr ⟨strToOs "d", strToOs "c.unknownext"⟩ =
      some "d/c.unknownext" ∧
    apply_rules ⟨strToOs "d", strToOs "c.unknownext"⟩ define_default_rules
      (ScriptArtifact.loaded (fun _ => none)) = RuleResult.ok none :=
  ⟨rfl, rfl,
    (c5_script_failure_no_destination (strToOs "d") (strToOs "c.unknownext")
      define_default_rules (fun _ => none) "d/c.unknownext"
      rfl rfl rfl).2.2.2⟩

/-- Claim C6: a file entry whose classification yields no destination is
skipped: the loop step for it is identical to the loop without it — no
move is logged, the listing is untouched, and no error arises from it. -/
theorem c6_no_match_no_move (directory name : OsString) (rules : RuleMap)
    (script : ScriptArtifact) (rest : List (OsString × Entry)) (es : Listing)
    (mv : List (OsString × String))
    (h : apply_rules ⟨directory, name⟩ rules script = RuleResult.ok none) :
    processEntries directory rules script ((name, Entry.file) :: rest) es mv =
      processEntries directory rules script rest es mv := by
  simp [processEntries, h]

/-- Witness for C6: `c.unknownext` matches nothing and is left in place. -/
theorem c6_no_match_no_move_witness :
    apply_rules ⟨strToOs "d", strToOs "c.unknownext"⟩ define_default_rules
        ScriptArtifact.absent = RuleResult.ok none ∧
    processEntries (strToOs "d") define_default_rules ScriptArtifact.absent
        ((strToOs "c.unknownext", Entry.file) :: [])
        [(strToOs "c.unknownext", Entry.file)] [] =
      processEntries (strToOs "d") define_default_rules ScriptArtifact.absent
        [] [(strToOs "c.unknownext", Entry.file)] [] :=
  ⟨rfl, c6_no_match_no_move (strToOs "d") (strToOs "c.unknownext")
    define_default_rules ScriptArtifact.absent []
    [(strToOs "c.unknownext", Entry.file)] [] rfl⟩

/-- Claim C7: with the default rules, one successful pass over a directory
holding `report.txt` relocates it: afterwards it is inside the `TextFiles`
subdirectory under its original name and no longer at the top level. -/
theorem c7_report_txt_roundtrip :
    (sort_files (strToOs "d") true reportListing RulesArtifact.absent
        ScriptArtifact.absent).outcome = Outcome.ok ∧
    lookupEntry (sort_files (strToOs "d") true reportListing
        RulesArtifact.absent ScriptArtifact.absent).state
      (strToOs "TextFiles") = some (Entry.subdir [strToOs "report.txt"]) ∧
    lookupEntry (sort_files (strToOs "d") true reportListing
        RulesArtifact.absent ScriptArtifact.absent).state
      (strToOs "report.txt") = none := by
  refine ⟨?_, ?_, ?_⟩ <;> decide

/-- Claim C8: a pass over an already-sorted directory — no regular file
left at the top level, only destination subdirectories — performs zero
moves and ends successfully with the listing unchanged. -/
theorem c8_sorted_pass_idempotent (directory : OsString) (es : Listing)
    (ra : RulesArtifact) (sa : ScriptArtifact)
    (h : ∀ p ∈ es, p.2 ≠ Entry.file) :
    sort_files directory true es ra sa = ⟨Outcome.ok, es, []⟩ := by
  have e : sort_files directory true es ra sa =
      processEntries directory ((load_rules ra).getD define_default_rules)
        sa es es [] := rfl
  rw [e]
  exact processEntries_no_files directory _ sa es es [] h

/-- Witness for C8: a second pass over the sorted listing moves nothing. -/
theorem c8_sorted_pass_idempotent_witness :
    (∀ p ∈ sortedListing, p.2 ≠ Entry.file) ∧
    sort_files (strToOs "d") true sortedListing RulesArtifact.absent
      ScriptArtifact.absent = ⟨Outcome.ok, sortedListing, []⟩ :=
  ⟨by decide, c8_sorted_pass_idempotent (strToOs "d") sortedListing
    RulesArtifact.absent ScriptArtifact.absent (by decide)⟩

/-- Claim C9: a subdirectory entry is never classified or moved — its loop
step is the identity — and a pass never descends into it: any subdirectory
of the scanned directory keeps all the files it started with (it can only
gain files moved into it, when it is a destination). -/
theorem c9_subdir_entries_untouched (directory m n : OsString)
    (g fs : List OsString) (rules : RuleMap) (script : ScriptArtifact)
    (rest : List (OsString × Entry)) (es es0 : Listing)
    (mv : List (OsString × String)) (ra : RulesArtifact) (sa : ScriptArtifact)
    (hnf : (n, Entry.file) ∉ es0)
    (hl : lookupEntry es0 n = some (Entry.subdir fs)) :
    processEntries directory rules script ((m, Entry.subdir g) :: rest) es mv =
      processEntries directory rules script rest es mv ∧
    ∃ fs', lookupEntry (sort_files directory true es0 ra sa).state n =
        some (Entry.subdir fs') ∧ fs ⊆ fs' := by
  constructor
  · rw [processEntries]
  · have e : sort_files directory true es0 ra sa =
        processEntries directory ((load_rules ra).getD define_default_rules)
          sa es0 es0 [] := rfl
    rw [e]
    exact processEntries_subdir_frame directory _ sa n es0 es0 [] fs hnf hl

/-- Witness for C9: the subdirectory `Keep` survives a pass with its file
`inner.txt` still inside, while `a.txt` is sorted next to it. -/
theorem c9_subdir_entries_untouched_witness :
    (strToOs "Keep", Entry.file) ∉ mixedListing ∧
    lookupEntry mixedListing (strToOs "Keep") =
      some (Entry.subdir [strToOs "inner.txt"]) ∧
    processEntries (strToOs "d") define_default_rules ScriptArtifact.absent
        ((strToOs "Keep", Entry.subdir [strToOs "inner.txt"]) :: [])
        mixedListing [] =
      processEntries (strToOs "d") define_default_rules ScriptArtifact.absent
        [] mixedListing [] ∧
    ∃ fs', lookupEntry (sort_files (strToOs "d") true mixedListing
        RulesArtifact.absent ScriptArtifact.absent).state (strToOs "Keep") =
        some (Entry.subdir fs') ∧ [strToOs "inner.txt"] ⊆ fs' := by
  refine ⟨by decide, rfl, ?_, ?_⟩
  · exact (c9_subdir_entries_untouched (strToOs "d") (strToOs "Keep")
      (strToOs "Keep") [strToOs "inner.txt"] [strToOs "inner.txt"]
      define_default_rules ScriptArtifact.absent [] mixedListing mixedListing
      [] RulesArtifact.absent ScriptArtifact.absent (by decide) rfl).1
  · exact (c9_subdir_entries_untouched (strToOs "d") (strToOs "Keep")
      (strToOs "Keep") [strToOs "inner.txt"] [strToOs "inner.txt"]
      define_default_rules ScriptArtifact.absent [] mixedListing mixedListing
      [] RulesArtifact.absent ScriptArtifact.absent (by decide) rfl).2

/-- Claim C10: classification panics on some non-UTF-8 path — a file whose
name holds an invalid byte, no static match, and a loaded script trigger
the `to_str().unwrap()` panic — while on every path whose string
conversion succeeds, `apply_rules` never panics. -/
theorem c10_non_utf8_panic (fp : FilePath) (rules : RuleMap)
    (script : ScriptArtifact) (s : String)
    (h : FilePath.toStr fp = some s) :
    apply_rules ⟨strToOs "d", [OsChar.bad 255]⟩ define_default_rules
      (ScriptArtifact.loaded (fun _ => some none)) = RuleResult.panicked ∧
    apply_rules fp rules script ≠ RuleResult.panicked := by
  refine ⟨rfl, ?_⟩
  cases hsl : staticLookup fp rules with
  | some dest => simp [apply_rules, hsl]
  | none =>
    cases script with
    | absent => simp [apply_rules, hsl]
    | unreadable => simp [apply_rules, hsl]
    | loadError => simp [apply_rules, hsl]
    | loaded f =>
      cases hfs : f s with
      | some dest => simp [apply_rules, hsl, h, hfs]
      | none => simp [apply_rules, hsl, h, hfs]

/-- Witness for C10: the valid path `d/x` never panics; the invalid-byte
path does. -/
theorem c10_non_utf8_panic_witness :
    FilePath.toStr ⟨strToOs "d", strToOs "x"⟩ = some "d/x" ∧
    apply_rules ⟨strToOs "d", [OsChar.bad 255]⟩ define_default_rules
      (ScriptArtifact.loaded (fun _ => some none)) = RuleResult.panicked ∧
    apply_rules ⟨strToOs "d", strToOs "x"⟩ define_default_rules
      ScriptArtifact.absent ≠ RuleResult.panicked :=
  ⟨rfl,
    (c10_non_utf8_panic ⟨strToOs "d", strToOs "x"⟩ define_default_rules
      ScriptArtifact.absent "d/x" rfl).1,
    (c10_non_utf8_panic ⟨strToOs "d", strToOs "x"⟩ define_default_rules
      ScriptArtifact.absent "d/x" rfl).2⟩
